import Mathlib

/-!
Verification of the client-side encryption core of the whistle repository.

The embedding mirrors `src/client/lib/notifications.ts` (SecureE2EEManager),
`src/client/lib/encryption.ts` (legacy codec with safeDecrypt),
and the forward-secrecy / file-encryption module (ForwardSecrecyManager,
SecureFileEncryption, canEncryptFile, encryptFileSecurely).

Host-environment primitives (CryptoJS hashing, PBKDF2, AES, hex codecs, and
JSON.stringify / JSON.parse) are library calls in the source; they are
modelled as an abstract structure `CryptoPrims` of pure functions, so every
theorem is stated for all instantiations of those primitives, with the
properties the source relies on (for example that AES decryption inverts
encryption at a given key and iv) taken as explicit pointwise hypotheses.
Randomness (`CryptoJS.lib.WordArray.random`) and clock reads (`Date.now()`)
are passed in as explicit parameters.  `CryptoJS.lib.WordArray` values are
modelled by their content strings; `toHex` stands for `WordArray.toString()`
(hex rendering) and `hexParse` for `CryptoJS.enc.Hex.parse`.
-/

set_option autoImplicit false
set_option maxRecDepth 100000

namespace Whistle

/-- The record serialized for the report-level HMAC
(`payloadForHmac` in `SecureE2EEManager.encryptReportData` /
`decryptReportData`): all ciphertext fields plus iv, salt, timestamp and the
key pair's sessionId.  Optional ciphertext fields are `undefined` in the
source object literal; `JSON.stringify` omits them. -/
structure HmacPayload where
  encryptedMessage : String
  encryptedCategory : String
  encryptedPhotoUrl : Option String
  encryptedVideoUrl : Option String
  encryptedVideoMetadata : Option String
  iv : String
  salt : String
  timestamp : String
  sessionId : String
deriving DecidableEq

/-- Metadata block of an encrypted file bundle
(`metadata` in `SecureFileEncryption.encryptFile`). -/
structure FileMetadata where
  originalSize : Nat
  mimeType : String
  filename : String
  chunks : Nat
deriving DecidableEq

/-- Abstract host primitives: the CryptoJS library functions and the JSON
functions used by the source.  `J` is the type of `video_metadata` values
(`any` in the source).  `aesDecrypt` returns `none` when
`WordArray.toString(CryptoJS.enc.Utf8)` would throw (malformed UTF-8).
`jsonTruthy` models JavaScript truthiness of a metadata value. -/
structure CryptoPrims (J : Type) where
  sha256 : String → String
  pbkdf2 : String → String → String
  hmacSha256 : String → String → String
  aesEncrypt : String → String → String → String
  aesDecrypt : String → String → String → Option String
  toHex : String → String
  hexParse : String → String
  stringifyPayload : HmacPayload → String
  stringifyFileMetadata : FileMetadata → String
  jsonStringify : J → String
  jsonParse : String → Option J
  jsonTruthy : J → Bool

/-- KeyPair interface of `src/client/lib/notifications.ts`. -/
structure KeyPair where
  encryptionKey : String
  hmacKey : String
  derivedAt : Nat
  sessionId : String
deriving DecidableEq

/-- SecureEncryptedData interface of `src/client/lib/notifications.ts`
(lines 445-465).  Note: the interface has no sessionId field. -/
structure SecureEncryptedData where
  encryptedMessage : String
  encryptedCategory : String
  encryptedPhotoUrl : Option String
  encryptedVideoUrl : Option String
  encryptedVideoMetadata : Option String
  iv : String
  salt : String
  timestamp : String
  keyDerivationIterations : Nat
  keyDerivationAlgorithm : String
  hmac : String
  version : String
deriving DecidableEq

/-- Plaintext report fields: the argument of `encryptReportData` and the
result of `decryptReportData`.  Absent optional fields are `none`
(`undefined` in the source). -/
structure ReportData (J : Type) where
  message : String
  category : String
  photo_url : Option String
  video_url : Option String
  video_metadata : Option J
deriving DecidableEq

namespace SecureE2EE

/-- `KEY_DERIVATION_ITERATIONS` of SecureE2EEManager. -/
def KEY_DERIVATION_ITERATIONS : Nat := 100000

/-- `VERSION` of SecureE2EEManager. -/
def VERSION : String := "1.0.0"

variable {J : Type}

/-- `SecureE2EEManager.generateEphemeralKeys`.  The random 256-bit session
entropy, the environment-derived user entropy (`gatherUserEntropy`), the
clock value and the two random salts are explicit parameters.  WordArray
concatenation is string concatenation of the content strings;
`combinedEntropy.toString()` is `toHex`. -/
def generateEphemeralKeys (c : CryptoPrims J) (sessionEntropy userEntropy : String)
    (now : Nat) (salt hmacSalt : String) : KeyPair :=
  let timestampEntropy := toString now
  let combinedEntropy := sessionEntropy ++ userEntropy ++ timestampEntropy
  let sessionId := (c.sha256 combinedEntropy).take 16
  let encryptionKey := c.pbkdf2 (c.toHex combinedEntropy) salt
  let hmacKey := c.pbkdf2 (c.toHex combinedEntropy ++ "_hmac") hmacSalt
  { encryptionKey := encryptionKey, hmacKey := hmacKey, derivedAt := now,
    sessionId := sessionId }

/-- `SecureE2EEManager.generateAdminKeys`: deterministic derivation from
`username + password + sessionId` with the fixed salt
"whistle-admin-salt-2024"; the HMAC key derivation appends "_admin_hmac". -/
def generateAdminKeys (c : CryptoPrims J) (username password sessionId : String)
    (now : Nat) : KeyPair :=
  let credentialEntropy := username ++ password ++ sessionId
  let salt := "whistle-admin-salt-2024"
  let encryptionKey := c.pbkdf2 (c.toHex credentialEntropy) salt
  let hmacKey := c.pbkdf2 (c.toHex credentialEntropy ++ "_admin_hmac") salt
  { encryptionKey := encryptionKey, hmacKey := hmacKey, derivedAt := now,
    sessionId := sessionId }

/-- `SecureE2EEManager.encryptField`: AES-256-CBC with PKCS7 padding under
the caller-supplied key and iv. -/
def encryptField (c : CryptoPrims J) (data key : String) (iv : String) : String :=
  c.aesEncrypt data key iv

/-- `SecureE2EEManager.decryptField`: AES decrypt followed by
`toString(CryptoJS.enc.Utf8)`, which throws on malformed UTF-8; no further
validation is applied to the result. -/
def decryptField (c : CryptoPrims J) (encryptedData key iv : String) :
    Except String String :=
  match c.aesDecrypt encryptedData key iv with
  | some s => Except.ok s
  | none => Except.error "Malformed UTF-8 data"

/-- `SecureE2EEManager.encryptReportData`.  `currentKeyPair` is the manager's
cached key pair; when it is `none` the source first calls
`generateEphemeralKeys`, whose (random) result is the `freshKeys` parameter.
The `if (data.photo_url)` style guards are JavaScript truthiness tests: a
present-but-empty string is treated as absent. -/
def encryptReportData (c : CryptoPrims J) (currentKeyPair : Option KeyPair)
    (freshKeys : KeyPair) (data : ReportData J) (iv salt : String)
    (timestamp : String) : SecureEncryptedData :=
  let keyPair := currentKeyPair.getD freshKeys
  let encryptedMessage := encryptField c data.message keyPair.encryptionKey iv
  let encryptedCategory := encryptField c data.category keyPair.encryptionKey iv
  let encryptedPhotoUrl :=
    match data.photo_url with
    | some p => if p = "" then none else some (encryptField c p keyPair.encryptionKey iv)
    | none => none
  let encryptedVideoUrl :=
    match data.video_url with
    | some v => if v = "" then none else some (encryptField c v keyPair.encryptionKey iv)
    | none => none
  let encryptedVideoMetadata :=
    match data.video_metadata with
    | some m =>
        if c.jsonTruthy m then
          some (encryptField c (c.jsonStringify m) keyPair.encryptionKey iv)
        else none
    | none => none
  let payloadForHmac : HmacPayload :=
    { encryptedMessage := encryptedMessage, encryptedCategory := encryptedCategory,
      encryptedPhotoUrl := encryptedPhotoUrl, encryptedVideoUrl := encryptedVideoUrl,
      encryptedVideoMetadata := encryptedVideoMetadata,
      iv := c.toHex iv, salt := c.toHex salt, timestamp := timestamp,
      sessionId := keyPair.sessionId }
  let hmac := c.hmacSha256 (c.stringifyPayload payloadForHmac) keyPair.hmacKey
  { encryptedMessage := encryptedMessage, encryptedCategory := encryptedCategory,
    encryptedPhotoUrl := encryptedPhotoUrl, encryptedVideoUrl := encryptedVideoUrl,
    encryptedVideoMetadata := encryptedVideoMetadata,
    iv := c.toHex iv, salt := c.toHex salt, timestamp := timestamp,
    keyDerivationIterations := KEY_DERIVATION_ITERATIONS,
    keyDerivationAlgorithm := "PBKDF2-SHA256",
    hmac := hmac, version := VERSION }

/-- The HMAC payload that `decryptReportData` rebuilds from a received bundle
and the sessionId of the keys in use. -/
def payloadOfBundle (e : SecureEncryptedData) (sessionId : String) : HmacPayload :=
  { encryptedMessage := e.encryptedMessage, encryptedCategory := e.encryptedCategory,
    encryptedPhotoUrl := e.encryptedPhotoUrl, encryptedVideoUrl := e.encryptedVideoUrl,
    encryptedVideoMetadata := e.encryptedVideoMetadata,
    iv := e.iv, salt := e.salt, timestamp := e.timestamp, sessionId := sessionId }

/-- `SecureE2EEManager.decryptReportData`.  The HMAC is recomputed and
compared before anything is decrypted; on mismatch the source throws.  The
video metadata string is passed to `JSON.parse` with no emptiness guard and
no try/catch, so a parse failure propagates (modelled as an error result;
the source raises the host SyntaxError). -/
def decryptReportData (c : CryptoPrims J) (encryptedData : SecureEncryptedData)
    (keyPair currentKeyPair : Option KeyPair) : Except String (ReportData J) :=
  match keyPair.orElse (fun _ => currentKeyPair) with
  | none => Except.error "No decryption keys available"
  | some keys =>
  let computedHmac :=
    c.hmacSha256 (c.stringifyPayload (payloadOfBundle encryptedData keys.sessionId))
      keys.hmacKey
  if computedHmac ≠ encryptedData.hmac then
    Except.error "HMAC verification failed - data may be corrupted"
  else do
    let iv := c.hexParse encryptedData.iv
    let message ← decryptField c encryptedData.encryptedMessage keys.encryptionKey iv
    let category ← decryptField c encryptedData.encryptedCategory keys.encryptionKey iv
    let photo_url ←
      match encryptedData.encryptedPhotoUrl with
      | some ct =>
          if ct = "" then pure none
          else (decryptField c ct keys.encryptionKey iv).map some
      | none => pure none
    let video_url ←
      match encryptedData.encryptedVideoUrl with
      | some ct =>
          if ct = "" then pure none
          else (decryptField c ct keys.encryptionKey iv).map some
      | none => pure none
    let video_metadata ←
      match encryptedData.encryptedVideoMetadata with
      | some ct =>
          if ct = "" then pure none
          else do
            let s ← decryptField c ct keys.encryptionKey iv
            match c.jsonParse s with
            | some j => pure (some j)
            | none => Except.error "JSON.parse failed"
      | none => pure none
    Except.ok { message := message, category := category, photo_url := photo_url,
                video_url := video_url, video_metadata := video_metadata }

end SecureE2EE

/-- One scan step of JavaScript `String.prototype.split` with a non-empty
separator: `acc` holds the current piece reversed; on a separator match the
piece is emitted and the separator skipped.  The `fuel` argument only makes
the recursion structural; it is always called with more fuel than
characters, so the fuel-exhaustion branch is unreachable. -/
def jsSplitAux (sep : List Char) : Nat → List Char → List Char → List (List Char)
  | _, [], acc => [acc.reverse]
  | 0, l, acc => [acc.reverse ++ l]
  | fuel + 1, ch :: rest, acc =>
      if sep.isPrefixOf (ch :: rest) then
        acc.reverse :: jsSplitAux sep fuel ((ch :: rest).drop sep.length) []
      else
        jsSplitAux sep fuel rest (ch :: acc)

/-- JavaScript `s.split(sep)` for a non-empty separator. -/
def jsSplit (s sep : String) : List String :=
  (jsSplitAux sep.toList (s.toList.length + 1) s.toList []).map String.mk

/-- JavaScript `s.trim()` restricted to ASCII whitespace: strips blanks,
tabs, newlines and carriage returns from both ends. -/
def jsTrim (s : String) : String :=
  let ws := fun ch => ch = ' ' || ch = '\t' || ch = '\n' || ch = '\r'
  String.mk (((s.toList.dropWhile ws).reverse.dropWhile ws).reverse)

namespace Legacy

/-- `ENCRYPTION_KEY` of `src/client/lib/encryption.ts`. -/
def ENCRYPTION_KEY : String := "whistle-secure-key-2024-harassment-reporting-system"

/-- EncryptedData interface of `src/client/lib/encryption.ts`. -/
structure EncryptedData where
  encryptedMessage : String
  encryptedCategory : String
  encryptedPhotoUrl : Option String
  encryptedVideoUrl : Option String
  encryptedVideoMetadata : Option String
  iv : String
  timestamp : String
deriving DecidableEq

/-- Number of NUL characters in a string:
`(utf8String.match(/\0/g) || []).length` in `safeDecrypt`. -/
def countNullBytes (s : String) : Nat :=
  s.toList.count (Char.ofNat 0)

variable {J : Type}

/-- `safeDecrypt` of `src/client/lib/encryption.ts` (lines 65-103): AES
decrypt, UTF-8 conversion (throwing on malformed input), then the
plausibility checks.  The JavaScript null/undefined check can never fire
(WordArray.toString always yields a string) and has no counterpart here; the
null-byte check `nullByteCount > utf8String.length / 2` is real-number
division in the source and is rendered as `2 * count > length`. -/
def safeDecrypt (c : CryptoPrims J) (encryptedText key : String) (iv : String) :
    Except String String :=
  match c.aesDecrypt encryptedText key iv with
  | none => Except.error "Incompatible encryption format or wrong decryption key"
  | some utf8String =>
      if 2 * countNullBytes utf8String > utf8String.length then
        Except.error "Decryption resulted in corrupted data (too many null bytes)"
      else
        Except.ok utf8String

/-- The video-metadata block of the legacy `decryptReportData` (lines
129-148): raw AES decrypt inside a try/catch, a truthiness guard
`decryptedMetadataString && decryptedMetadataString.trim()`, and `JSON.parse`
whose failure is caught and degraded to `undefined`.  Every failure path
yields `none`; nothing is propagated. -/
def decryptVideoMetadata (c : CryptoPrims J) (encryptedVideoMetadata : Option String)
    (iv : String) : Option J :=
  match encryptedVideoMetadata with
  | none => none
  | some ct =>
      if ct = "" then none
      else
        match c.aesDecrypt ct ENCRYPTION_KEY iv with
        | none => none
        | some s => if s ≠ "" ∧ jsTrim s ≠ "" then c.jsonParse s else none

/-- Legacy `decryptReportData` of `src/client/lib/encryption.ts` (lines
108-161): message and category via `safeDecrypt`, optional URL fields via
`safeDecrypt` behind truthiness guards, the metadata block as above, and an
outer catch re-wrapping any error message. -/
def decryptReportData (c : CryptoPrims J) (encryptedData : EncryptedData) :
    Except String (ReportData J) :=
  let body : Except String (ReportData J) := do
    let iv := c.hexParse encryptedData.iv
    let message ← safeDecrypt c encryptedData.encryptedMessage ENCRYPTION_KEY iv
    let category ← safeDecrypt c encryptedData.encryptedCategory ENCRYPTION_KEY iv
    let photo_url ←
      match encryptedData.encryptedPhotoUrl with
      | some ct =>
          if ct = "" then pure none
          else (safeDecrypt c ct ENCRYPTION_KEY iv).map some
      | none => pure none
    let video_url ←
      match encryptedData.encryptedVideoUrl with
      | some ct =>
          if ct = "" then pure none
          else (safeDecrypt c ct ENCRYPTION_KEY iv).map some
      | none => pure none
    let video_metadata := decryptVideoMetadata c encryptedData.encryptedVideoMetadata iv
    Except.ok { message := message, category := category, photo_url := photo_url,
                video_url := video_url, video_metadata := video_metadata }
  match body with
  | Except.ok r => Except.ok r
  | Except.error e => Except.error ("Legacy decryption failed: " ++ e)

end Legacy

namespace FileEnc

/-- `CHUNK_SIZE` of SecureFileEncryption: 1 MiB of base64 text per chunk. -/
def CHUNK_SIZE : Nat := 1024 * 1024

/-- Result of `secureE2EE.getSessionInfo()`. -/
structure SessionInfo where
  sessionId : String
  derivedAt : Nat
deriving DecidableEq

/-- `cryptoParams` block of an EncryptedFileData bundle. -/
structure CryptoParams where
  iv : String
  salt : String
  hmac : String
deriving DecidableEq

/-- EncryptedFileData interface of the file-encryption module. -/
structure EncryptedFileData where
  encryptedContent : String
  metadata : FileMetadata
  cryptoParams : CryptoParams
  sessionId : String
  timestamp : String
deriving DecidableEq

/-- `fileContent.slice(i * CHUNK_SIZE, min((i + 1) * CHUNK_SIZE, length))`:
the i-th 1 MiB slice of the base64 text. -/
def sliceChunk (s : String) (i : Nat) : String :=
  String.mk ((s.toList.drop (i * CHUNK_SIZE)).take CHUNK_SIZE)

variable {J : Type}

/-- `SecureFileEncryption.encryptFile`.  `fileContent` is the base64 payload
produced by `fileToBase64`; `fileSize`, `mimeType` and `filename` come from
the `File` object; iv and salt are the random WordArrays.  The source
selects its keys with
`keyPair || secureE2EE.getSessionInfo() ? await this.getCurrentKeys() : secureE2EE.generateEphemeralKeys()`;
`||` binds tighter than the conditional operator, and `getCurrentKeys()`
itself always calls `generateEphemeralKeys()`, so every branch uses a
freshly generated ephemeral key pair (the `freshKeys` parameter) and the
caller-supplied `keyPair` is never used. -/
def encryptFile (c : CryptoPrims J) (fileSize : Nat) (mimeType filename : String)
    (fileContent : String) (keyPair : Option KeyPair)
    (sessionInfo : Option SessionInfo) (freshKeys : KeyPair)
    (iv salt : String) (timestamp : String) : EncryptedFileData :=
  let keys := if keyPair.isSome || sessionInfo.isSome then freshKeys else freshKeys
  let chunks := (fileContent.length + CHUNK_SIZE - 1) / CHUNK_SIZE
  let encryptedChunks :=
    (List.range chunks).map fun i =>
      c.aesEncrypt (sliceChunk fileContent i) keys.encryptionKey iv
  let encryptedContent := String.intercalate "|CHUNK|" encryptedChunks
  let metadata : FileMetadata :=
    { originalSize := fileSize, mimeType := mimeType, filename := filename,
      chunks := chunks }
  let dataForHmac := encryptedContent ++ c.stringifyFileMetadata metadata ++ keys.sessionId
  let hmac := c.hmacSha256 dataForHmac keys.hmacKey
  { encryptedContent := encryptedContent, metadata := metadata,
    cryptoParams := { iv := c.toHex iv, salt := c.toHex salt, hmac := hmac },
    sessionId := keys.sessionId, timestamp := timestamp }

/-- `SecureFileEncryption.decryptFile`.  Without an explicit key pair the
source derives admin keys from the hard-coded credentials "ritika" /
"satoru 2624" and the bundle's own sessionId.  The HMAC over
`encryptedContent + JSON.stringify(metadata) + sessionId` is checked before
any chunk is decrypted; chunks are then split on "|CHUNK|", decrypted, and
joined. -/
def decryptFile (c : CryptoPrims J) (encryptedFileData : EncryptedFileData)
    (keyPair : Option KeyPair) (now : Nat) : Except String String :=
  let keys := keyPair.getD
    (SecureE2EE.generateAdminKeys c "ritika" "satoru 2624"
      encryptedFileData.sessionId now)
  let dataForHmac := encryptedFileData.encryptedContent ++
    c.stringifyFileMetadata encryptedFileData.metadata ++ encryptedFileData.sessionId
  let computedHmac := c.hmacSha256 dataForHmac keys.hmacKey
  if computedHmac ≠ encryptedFileData.cryptoParams.hmac then
    Except.error "File integrity check failed - file may be corrupted"
  else do
    let iv := c.hexParse encryptedFileData.cryptoParams.iv
    let encryptedChunks := jsSplit encryptedFileData.encryptedContent "|CHUNK|"
    let decryptedChunks ← encryptedChunks.mapM fun ch =>
      match c.aesDecrypt ch keys.encryptionKey iv with
      | some s => Except.ok s
      | none => Except.error "Malformed UTF-8 data"
    Except.ok (String.join decryptedChunks)

/-- `SecureFileEncryption.estimateEncryptedSize`.  The source computes
`Math.ceil(originalSize + originalSize * 0.33 + encryptionOverhead + chunkOverhead)`
with real-number arithmetic; all terms except `originalSize * 0.33` are
integers, so the ceiling is rendered with exact rational arithmetic as
`(33 * originalSize + 99) / 100` (natural-number division). -/
def estimateEncryptedSize (originalSize : Nat) : Nat :=
  let base64Overhead := (33 * originalSize + 99) / 100
  let encryptionOverhead := ((originalSize + 15) / 16) * 16 - originalSize
  let chunkOverhead := ((originalSize + CHUNK_SIZE - 1) / CHUNK_SIZE) * 8
  originalSize + base64Overhead + encryptionOverhead + chunkOverhead

/-- Structured rejection reason of `canEncryptFile`.  The source renders
these as message strings (with sizes formatted in MB); the payload here
carries the same data. -/
inductive RejectReason where
  | fileTooLarge (sizeBytes : Nat)
  | encryptedTooLarge (estimatedBytes : Nat)
deriving DecidableEq

/-- Return shape of `canEncryptFile`. -/
structure CanEncryptResult where
  canEncrypt : Bool
  reason : Option RejectReason
deriving DecidableEq

/-- `maxSize` in `canEncryptFile`: the fixed 100 MiB ceiling. -/
def maxSize : Nat := 100 * 1024 * 1024

/-- `SecureFileEncryption.canEncryptFile`: refuse files over 100 MiB, or
whose estimated encrypted size exceeds `maxSize * 1.5` (an exact integer,
rendered as `maxSize * 3 / 2`). -/
def canEncryptFile (fileSize : Nat) : CanEncryptResult :=
  let estimatedEncryptedSize := estimateEncryptedSize fileSize
  if fileSize > maxSize then
    { canEncrypt := false, reason := some (RejectReason.fileTooLarge fileSize) }
  else if estimatedEncryptedSize > maxSize * 3 / 2 then
    { canEncrypt := false,
      reason := some (RejectReason.encryptedTooLarge estimatedEncryptedSize) }
  else
    { canEncrypt := true, reason := none }

/-- `encryptFileSecurely`: runs the size check first and throws its reason
without doing any encryption work; otherwise calls `encryptFile` with no
explicit key pair. -/
def encryptFileSecurely (c : CryptoPrims J) (fileSize : Nat)
    (mimeType filename fileContent : String) (sessionInfo : Option SessionInfo)
    (freshKeys : KeyPair) (iv salt : String) (timestamp : String) :
    Except (Option RejectReason) EncryptedFileData :=
  let canEncrypt := canEncryptFile fileSize
  if canEncrypt.canEncrypt = false then
    Except.error canEncrypt.reason
  else
    Except.ok (encryptFile c fileSize mimeType filename fileContent none
      sessionInfo freshKeys iv salt timestamp)

end FileEnc

namespace PFS

/-- SessionMetrics interface of the forward-secrecy module.  The running
average is a real number in the source; it is modelled as a rational. -/
structure SessionMetrics where
  sessionsCreated : Nat
  sessionsCleared : Nat
  averageSessionDuration : Rat
  lastKeyRotation : Nat
deriving DecidableEq

/-- The mutable state that `clearSessionImmediate` touches: the metrics, the
manager's `sessionStartTime`, and the E2EE singleton's `currentKeyPair`
(cleared via `secureE2EE.clearSessionKeys()`). -/
structure ManagerState where
  sessionMetrics : SessionMetrics
  sessionStartTime : Nat
  currentKeyPair : Option KeyPair
deriving DecidableEq

/-- `ForwardSecrecyManager.updateSessionMetrics`: running average over
`totalSessions = sessionsCleared` (read before the increment that follows in
`clearSessionImmediate`).  When `totalSessions` is zero the source divides
by zero and stores NaN; that path is never exercised here because
`clearSessionImmediate` only calls this with `sessionStartTime > 0`. -/
def updateSessionMetrics (m : SessionMetrics) (duration : Nat) : SessionMetrics :=
  let totalSessions := m.sessionsCleared
  let currentAverage := m.averageSessionDuration
  { m with averageSessionDuration :=
      (currentAverage * ((totalSessions : Rat) - 1) + (duration : Rat)) /
        (totalSessions : Rat) }

/-- `ForwardSecrecyManager.clearSessionImmediate`: clear the key pair,
update the duration metrics only when a session start time is recorded, and
then increment `sessionsCleared` unconditionally.  The `reason` argument is
only logged. -/
def clearSessionImmediate (st : ManagerState) (reason : String) (now : Nat) :
    ManagerState :=
  let _ := reason
  let st1 : ManagerState := { st with currentKeyPair := none }
  let st2 : ManagerState :=
    if st1.sessionStartTime > 0 then
      let sessionDuration := now - st1.sessionStartTime
      { st1 with
        sessionMetrics := updateSessionMetrics st1.sessionMetrics sessionDuration,
        sessionStartTime := 0 }
    else st1
  { st2 with sessionMetrics :=
      { st2.sessionMetrics with
        sessionsCleared := st2.sessionMetrics.sessionsCleared + 1 } }

end PFS

namespace Toy

/-- Renders an optional string for the toy payload serializer. -/
def optStr : Option String → String
  | none => "_"
  | some s => "S" ++ s

/-- A concrete, executable instantiation of the host primitives, used to
evaluate the embedded functions on explicit inputs.  Each primitive tags its
arguments inside a distinctive wrapper, so outputs of different primitives
or different arguments are distinct strings, and AES decryption inverts
encryption under the matching key and iv.  Metadata values are plain
strings; truthiness is non-emptiness. -/
def prims : CryptoPrims String where
  sha256 := fun s => "SHA(" ++ s ++ ")"
  pbkdf2 := fun pw salt => "PB(" ++ pw ++ ";" ++ salt ++ ")"
  hmacSha256 := fun msg key => "HM(" ++ msg ++ ";" ++ key ++ ")"
  aesEncrypt := fun pt key iv => "AES(" ++ pt ++ ";" ++ key ++ ";" ++ iv ++ ")"
  aesDecrypt := fun ct key iv =>
    let suffix := ";" ++ key ++ ";" ++ iv ++ ")"
    if ("AES(".toList.isPrefixOf ct.toList && suffix.toList.isSuffixOf ct.toList) then
      some ((ct.drop 4).dropRight suffix.length)
    else none
  toHex := fun s => s
  hexParse := fun s => s
  stringifyPayload := fun p =>
    "PL(" ++ p.encryptedMessage ++ ";" ++ p.encryptedCategory ++ ";" ++
      optStr p.encryptedPhotoUrl ++ ";" ++ optStr p.encryptedVideoUrl ++ ";" ++
      optStr p.encryptedVideoMetadata ++ ";" ++ p.iv ++ ";" ++ p.salt ++ ";" ++
      p.timestamp ++ ";" ++ p.sessionId ++ ")"
  stringifyFileMetadata := fun m =>
    "FM(" ++ toString m.originalSize ++ ";" ++ m.mimeType ++ ";" ++
      m.filename ++ ";" ++ toString m.chunks ++ ")"
  jsonStringify := fun s => s
  jsonParse := fun s => some s
  jsonTruthy := fun s => s != ""

/-- Variant of the toy primitives whose JSON parser always fails, for
exercising the metadata parse-failure paths. -/
def primsNoParse : CryptoPrims String :=
  { prims with jsonParse := fun _ => none }

/-- Variant of the toy primitives whose AES decryption always fails, for
showing that rejected bundles are never decrypted. -/
def primsNoDecrypt : CryptoPrims String :=
  { prims with aesDecrypt := fun _ _ _ => none }

/-- A concrete ephemeral session key pair derived by the embedded
`generateEphemeralKeys` from explicit toy entropy. -/
def sessionKeys0 : KeyPair :=
  SecureE2EE.generateEphemeralKeys prims "SE" "UE" 5 "S1" "S2"

/-- The admin key pair an admin would derive for `sessionKeys0`'s session
with the repository's hard-coded credentials. -/
def adminKeys0 : KeyPair :=
  SecureE2EE.generateAdminKeys prims "ritika" "satoru 2624" sessionKeys0.sessionId 7

/-- The example report of the specification. -/
def report0 : ReportData String :=
  { message := "test report", category := "harassment",
    photo_url := none, video_url := none, video_metadata := none }

/-- A concrete bundle encrypted under `sessionKeys0`. -/
def bundle0 : SecureEncryptedData :=
  SecureE2EE.encryptReportData prims (some sessionKeys0) sessionKeys0 report0
    "IV0" "SALT0" "TS0"

/-- A report with every optional field present and truthy. -/
def reportFull : ReportData String :=
  { message := "msg", category := "cat", photo_url := some "purl",
    video_url := some "vurl", video_metadata := some "mdata" }

/-- A report whose photo URL is present but is the empty string. -/
def reportEmptyPhoto : ReportData String :=
  { message := "m", category := "c", photo_url := some "",
    video_url := none, video_metadata := none }

/-- A report whose message consists entirely of NUL bytes. -/
def reportNullMessage : ReportData String :=
  { message := "\x00\x00\x00", category := "c", photo_url := none,
    video_url := none, video_metadata := none }

/-- A report carrying (truthy) video metadata. -/
def reportWithMetadata : ReportData String :=
  { message := "m", category := "c", photo_url := none,
    video_url := none, video_metadata := some "md" }

/-- A legacy bundle whose video metadata decrypts to a whitespace-only
string (so the truthiness guard fails and the metadata degrades). -/
def legacyBundle0 : Legacy.EncryptedData :=
  { encryptedMessage := prims.aesEncrypt "m" Legacy.ENCRYPTION_KEY "V",
    encryptedCategory := prims.aesEncrypt "c" Legacy.ENCRYPTION_KEY "V",
    encryptedPhotoUrl := none, encryptedVideoUrl := none,
    encryptedVideoMetadata := some (prims.aesEncrypt " " Legacy.ENCRYPTION_KEY "V"),
    iv := "V", timestamp := "TS" }

/-- A caller-supplied key pair handed to `encryptFile`. -/
def callerKeys : KeyPair :=
  { encryptionKey := "CK", hmacKey := "CH", derivedAt := 1, sessionId := "CS" }

/-- The fresh ephemeral key pair that `encryptFile` generates internally. -/
def freshKeys0 : KeyPair :=
  { encryptionKey := "FK", hmacKey := "FH", derivedAt := 2, sessionId := "FS" }

/-- A concrete file bundle: `encryptFile` called WITH an explicit key pair
(`callerKeys`), which the source nevertheless ignores in favour of the
freshly generated `freshKeys0`. -/
def fileBundle0 : FileEnc.EncryptedFileData :=
  FileEnc.encryptFile prims 5 "text/plain" "f.txt" "aGVsbG8" (some callerKeys)
    none freshKeys0 "IV" "SALT" "TS"

end Toy

/-- Executable round-trip condition for one optional URL field: absent, or
present, truthy, with truthy ciphertext, and AES decryption under the
re-parsed iv restoring the plaintext.  These are the properties of the host
primitives that the source relies on for that field. -/
def fieldRoundTrips {J : Type} (c : CryptoPrims J) (key iv iv2 : String) :
    Option String → Bool
  | none => true
  | some p =>
      decide (p ≠ "") &&
      decide (c.aesEncrypt p key iv ≠ "") &&
      decide (c.aesDecrypt (c.aesEncrypt p key iv) key iv2 = some p)

/-- Executable round-trip condition for the optional video metadata: absent,
or truthy, with its JSON serialization surviving AES encryption and the
parse of the decrypted string restoring the original value. -/
def metadataRoundTrips {J : Type} [DecidableEq J] (c : CryptoPrims J)
    (key iv iv2 : String) : Option J → Bool
  | none => true
  | some m =>
      c.jsonTruthy m &&
      decide (c.aesEncrypt (c.jsonStringify m) key iv ≠ "") &&
      decide (c.aesDecrypt (c.aesEncrypt (c.jsonStringify m) key iv) key iv2 =
        some (c.jsonStringify m)) &&
      decide (c.jsonParse (c.jsonStringify m) = some m)

/-! ## Theorems -/

/-- C10: when `decryptFile` is called without an explicit key pair it
behaves exactly as if called with
`generateAdminKeys` applied to the hard-coded credentials "ritika" /
"satoru 2624" and the bundle's own sessionId.  The derivation clock values
are irrelevant since `derivedAt` is never read during decryption. -/
theorem decryptFile_defaults_to_hardcoded_admin_keys {J : Type}
    (c : CryptoPrims J) (e : FileEnc.EncryptedFileData) (n1 n2 : Nat) :
    FileEnc.decryptFile c e none n1 =
      FileEnc.decryptFile c e
        (some (SecureE2EE.generateAdminKeys c "ritika" "satoru 2624"
          e.sessionId n2)) n2 := by
  unfold FileEnc.decryptFile
  rfl

/-- C8: the size check refuses, with a structured result carrying a reason,
every file whose size exceeds 100 MiB or whose estimated encrypted size
exceeds 1.5 times 100 MiB; `encryptFileSecurely` then reports that rejection
without producing any bundle; a 101 MiB file is rejected while a 99 MiB file
is accepted. -/
theorem size_policy_rejects_oversize_accepts_smaller (fileSize : Nat)
    (h : fileSize > FileEnc.maxSize ∨
      FileEnc.estimateEncryptedSize fileSize > FileEnc.maxSize * 3 / 2) :
    (FileEnc.canEncryptFile fileSize).canEncrypt = false ∧
    (FileEnc.canEncryptFile fileSize).reason ≠ none ∧
    (∀ (J : Type) (c : CryptoPrims J) (mimeType filename fileContent : String)
      (sessionInfo : Option FileEnc.SessionInfo) (freshKeys : KeyPair)
      (iv salt timestamp : String),
      FileEnc.encryptFileSecurely c fileSize mimeType filename fileContent
        sessionInfo freshKeys iv salt timestamp =
        Except.error (FileEnc.canEncryptFile fileSize).reason) ∧
    (FileEnc.canEncryptFile (101 * 1024 * 1024)).canEncrypt = false ∧
    (FileEnc.canEncryptFile (99 * 1024 * 1024)).canEncrypt = true := by
  have hfalse : (FileEnc.canEncryptFile fileSize).canEncrypt = false ∧
      (FileEnc.canEncryptFile fileSize).reason ≠ none := by
    unfold FileEnc.canEncryptFile
    rcases h with h1 | h2
    · simp [h1]
    · by_cases h1 : fileSize > FileEnc.maxSize
      · simp [h1]
      · simp [h1, h2]
  refine ⟨hfalse.1, hfalse.2, ?_, by decide, by decide⟩
  intro J c mimeType filename fileContent sessionInfo freshKeys iv salt timestamp
  unfold FileEnc.encryptFileSecurely
  simp [hfalse.1]

/-- Witness for C8: a 101 MiB file is over the 100 MiB ceiling and is
refused, while a 99 MiB file passes the check. -/
theorem size_policy_rejects_oversize_accepts_smaller_witness :
    (FileEnc.canEncryptFile (101 * 1024 * 1024)).canEncrypt = false ∧
    (FileEnc.canEncryptFile (99 * 1024 * 1024)).canEncrypt = true := by
  have h := size_policy_rejects_oversize_accepts_smaller (101 * 1024 * 1024)
    (Or.inl (by decide))
  exact ⟨h.2.2.2.1, h.2.2.2.2⟩

/-- C9 counterexample: calling `clearSessionImmediate` with no active
session (no start time, no key pair) is not a no-op: the state changes,
because `sessionsCleared` is incremented unconditionally. -/
theorem clearSessionImmediate_counts_clear_with_no_session :
    PFS.clearSessionImmediate
        { sessionMetrics :=
            { sessionsCreated := 0, sessionsCleared := 0,
              averageSessionDuration := 0, lastKeyRotation := 0 },
          sessionStartTime := 0, currentKeyPair := none }
        "No active session" 1000 ≠
      { sessionMetrics :=
          { sessionsCreated := 0, sessionsCleared := 0,
            averageSessionDuration := 0, lastKeyRotation := 0 },
        sessionStartTime := 0, currentKeyPair := none } := by
  decide

/-- C9 amended: with no active session (`sessionStartTime = 0`),
`clearSessionImmediate` leaves `sessionsCreated`, `averageSessionDuration`,
`lastKeyRotation` and `sessionStartTime` unchanged and the key pair cleared,
but still increments `sessionsCleared` by one. -/
theorem clearSessionImmediate_no_session_effect (st : PFS.ManagerState)
    (reason : String) (now : Nat) (h : st.sessionStartTime = 0) :
    PFS.clearSessionImmediate st reason now =
      { st with
        currentKeyPair := none,
        sessionMetrics := { st.sessionMetrics with
          sessionsCleared := st.sessionMetrics.sessionsCleared + 1 } } := by
  unfold PFS.clearSessionImmediate
  simp [h]

/-- Witness for C9 amended, at a concrete idle state. -/
theorem clearSessionImmediate_no_session_effect_witness :
    PFS.clearSessionImmediate
        { sessionMetrics :=
            { sessionsCreated := 2, sessionsCleared := 1,
              averageSessionDuration := 500, lastKeyRotation := 9 },
          sessionStartTime := 0, currentKeyPair := some Toy.sessionKeys0 }
        "Page unload" 4242 =
      { sessionMetrics :=
          { sessionsCreated := 2, sessionsCleared := 2,
            averageSessionDuration := 500, lastKeyRotation := 9 },
        sessionStartTime := 0, currentKeyPair := none } :=
  clearSessionImmediate_no_session_effect
    { sessionMetrics :=
        { sessionsCreated := 2, sessionsCleared := 1,
          averageSessionDuration := 500, lastKeyRotation := 9 },
      sessionStartTime := 0, currentKeyPair := some Toy.sessionKeys0 }
    "Page unload" 4242 rfl

/-- C1 counterexample: for a concrete bundle encrypted under a session key
pair produced by `generateEphemeralKeys`, the admin keys derived by
`generateAdminKeys` from the hard-coded credentials and that session's id
differ from the session keys in both components, and `decryptReportData`
under the admin keys rejects the bundle at the HMAC check, decrypting
nothing. -/
theorem adminKeys_cannot_decrypt_session_bundle :
    Toy.adminKeys0.encryptionKey ≠ Toy.sessionKeys0.encryptionKey ∧
    Toy.adminKeys0.hmacKey ≠ Toy.sessionKeys0.hmacKey ∧
    SecureE2EE.decryptReportData Toy.prims Toy.bundle0 (some Toy.adminKeys0) none =
      Except.error "HMAC verification failed - data may be corrupted" :=
  ⟨by decide, by decide, rfl⟩

/-- C1 amended: `generateAdminKeys` is a deterministic derivation — its
encryption and HMAC keys depend only on username, password and sessionId
(not on the clock) and it preserves the given sessionId — but it does not
reproduce the keys of `generateEphemeralKeys`: whenever the HMAC computed
under the admin-derived hmacKey differs from the bundle's stored hmac (the
generic case, the two derivations having independent inputs and salts),
`decryptReportData` under the admin keys fails with the HMAC verification
error and returns no plaintext. -/
theorem generateAdminKeys_deterministic_and_mismatch_rejected {J : Type}
    (c : CryptoPrims J) (u p sid : String) (n1 n2 now : Nat) (K : KeyPair)
    (F : ReportData J) (iv salt ts : String)
    (h : c.hmacSha256
          (c.stringifyPayload (SecureE2EE.payloadOfBundle
            (SecureE2EE.encryptReportData c (some K) K F iv salt ts) K.sessionId))
          (SecureE2EE.generateAdminKeys c u p K.sessionId now).hmacKey ≠
        (SecureE2EE.encryptReportData c (some K) K F iv salt ts).hmac) :
    (SecureE2EE.generateAdminKeys c u p sid n1).encryptionKey =
      (SecureE2EE.generateAdminKeys c u p sid n2).encryptionKey ∧
    (SecureE2EE.generateAdminKeys c u p sid n1).hmacKey =
      (SecureE2EE.generateAdminKeys c u p sid n2).hmacKey ∧
    (SecureE2EE.generateAdminKeys c u p sid n1).sessionId = sid ∧
    SecureE2EE.decryptReportData c
        (SecureE2EE.encryptReportData c (some K) K F iv salt ts)
        (some (SecureE2EE.generateAdminKeys c u p K.sessionId now)) none =
      Except.error "HMAC verification failed - data may be corrupted" := by
  refine ⟨rfl, rfl, rfl, ?_⟩
  unfold SecureE2EE.decryptReportData
  simp only [Option.orElse]
  exact if_pos h

/-- Witness for C1 amended at the concrete toy instantiation. -/
theorem generateAdminKeys_deterministic_and_mismatch_rejected_witness :
    (SecureE2EE.generateAdminKeys Toy.prims "ritika" "satoru 2624" "sid" 1).encryptionKey =
      (SecureE2EE.generateAdminKeys Toy.prims "ritika" "satoru 2624" "sid" 2).encryptionKey ∧
    (SecureE2EE.generateAdminKeys Toy.prims "ritika" "satoru 2624" "sid" 1).hmacKey =
      (SecureE2EE.generateAdminKeys Toy.prims "ritika" "satoru 2624" "sid" 2).hmacKey ∧
    (SecureE2EE.generateAdminKeys Toy.prims "ritika" "satoru 2624" "sid" 1).sessionId = "sid" ∧
    SecureE2EE.decryptReportData Toy.prims
        (SecureE2EE.encryptReportData Toy.prims (some Toy.sessionKeys0)
          Toy.sessionKeys0 Toy.report0 "IV0" "SALT0" "TS0")
        (some (SecureE2EE.generateAdminKeys Toy.prims "ritika" "satoru 2624"
          Toy.sessionKeys0.sessionId 7)) none =
      Except.error "HMAC verification failed - data may be corrupted" :=
  generateAdminKeys_deterministic_and_mismatch_rejected Toy.prims
    "ritika" "satoru 2624" "sid" 1 2 7 Toy.sessionKeys0 Toy.report0
    "IV0" "SALT0" "TS0" (by decide)

/-- C4 amended: a bundle produced by `encryptReportData` carries no
sessionId field; its hmac is the HMAC-SHA256, under the key pair's hmacKey,
of the serialized record of the ciphertext fields, iv, salt and timestamp
plus the key pair's sessionId; and the version and key-derivation parameters
are fixed tags outside the HMAC's coverage. -/
theorem hmac_covers_payload_plus_sessionId {J : Type} (c : CryptoPrims J)
    (K freshKeys : KeyPair) (F : ReportData J) (iv salt ts : String) :
    (SecureE2EE.encryptReportData c (some K) freshKeys F iv salt ts).hmac =
      c.hmacSha256
        (c.stringifyPayload (SecureE2EE.payloadOfBundle
          (SecureE2EE.encryptReportData c (some K) freshKeys F iv salt ts)
          K.sessionId))
        K.hmacKey ∧
    (SecureE2EE.encryptReportData c (some K) freshKeys F iv salt ts).version =
      SecureE2EE.VERSION ∧
    (SecureE2EE.encryptReportData c (some K) freshKeys F iv salt ts).keyDerivationIterations =
      SecureE2EE.KEY_DERIVATION_ITERATIONS ∧
    (SecureE2EE.encryptReportData c (some K) freshKeys F iv salt ts).keyDerivationAlgorithm =
      "PBKDF2-SHA256" :=
  ⟨rfl, rfl, rfl, rfl⟩

/-- C4 counterexample: mutating the `version` field of a concrete bundle
does not invalidate its hmac — `decryptReportData` still succeeds on the
mutated bundle — refuting that the hmac covers every other bundle field. -/
theorem version_mutation_leaves_hmac_valid :
    ({ Toy.bundle0 with version := "2.0.0" } : SecureEncryptedData).version ≠
      Toy.bundle0.version ∧
    SecureE2EE.decryptReportData Toy.prims
        { Toy.bundle0 with version := "2.0.0" } (some Toy.sessionKeys0) none =
      Except.ok Toy.report0 :=
  ⟨by decide, rfl⟩

/-- Unpacking of the executable URL-field round-trip condition. -/
theorem fieldRoundTrips_some {J : Type} (c : CryptoPrims J) (key iv iv2 p : String)
    (h : fieldRoundTrips c key iv iv2 (some p) = true) :
    p ≠ "" ∧ c.aesEncrypt p key iv ≠ "" ∧
      c.aesDecrypt (c.aesEncrypt p key iv) key iv2 = some p := by
  simpa [fieldRoundTrips, Bool.and_eq_true, decide_eq_true_eq, and_assoc] using h

/-- Unpacking of the executable metadata round-trip condition. -/
theorem metadataRoundTrips_some {J : Type} [DecidableEq J] (c : CryptoPrims J)
    (key iv iv2 : String) (m : J)
    (h : metadataRoundTrips c key iv iv2 (some m) = true) :
    c.jsonTruthy m = true ∧ c.aesEncrypt (c.jsonStringify m) key iv ≠ "" ∧
      c.aesDecrypt (c.aesEncrypt (c.jsonStringify m) key iv) key iv2 =
        some (c.jsonStringify m) ∧
      c.jsonParse (c.jsonStringify m) = some m := by
  simpa [metadataRoundTrips, Bool.and_eq_true, decide_eq_true_eq, and_assoc] using h

/-- C2 amended: for every field bundle whose optional fields are either
absent or truthy (JavaScript truthiness: present-but-empty strings and
falsy metadata are silently treated as absent by the source, see the
counterexample), and whose fields survive the AES and JSON round trips of
the host primitives, decrypting an encryption of the bundle under the same
key pair returns the bundle exactly, absent fields staying absent. -/
theorem encryptReport_decryptReport_roundtrip {J : Type} [DecidableEq J]
    (c : CryptoPrims J) (K : KeyPair) (F : ReportData J) (iv salt ts : String)
    (hm : c.aesDecrypt (c.aesEncrypt F.message K.encryptionKey iv) K.encryptionKey
        (c.hexParse (c.toHex iv)) = some F.message)
    (hc : c.aesDecrypt (c.aesEncrypt F.category K.encryptionKey iv) K.encryptionKey
        (c.hexParse (c.toHex iv)) = some F.category)
    (hp : fieldRoundTrips c K.encryptionKey iv (c.hexParse (c.toHex iv))
        F.photo_url = true)
    (hv : fieldRoundTrips c K.encryptionKey iv (c.hexParse (c.toHex iv))
        F.video_url = true)
    (hmd : metadataRoundTrips c K.encryptionKey iv (c.hexParse (c.toHex iv))
        F.video_metadata = true) :
    SecureE2EE.decryptReportData c
        (SecureE2EE.encryptReportData c none K F iv salt ts) (some K) none =
      Except.ok F := by
  obtain ⟨m, cat, po, vo, md⟩ := F
  simp only at hm hc hp hv hmd
  unfold SecureE2EE.encryptReportData SecureE2EE.decryptReportData
  simp only [Option.orElse, Option.getD, SecureE2EE.encryptField,
    SecureE2EE.decryptField, SecureE2EE.payloadOfBundle]
  rcases po with _ | p <;> rcases vo with _ | v <;> rcases md with _ | mdv
  all_goals try obtain ⟨hp1, hp2, hp3⟩ := fieldRoundTrips_some c _ _ _ _ hp
  all_goals try obtain ⟨hv1, hv2, hv3⟩ := fieldRoundTrips_some c _ _ _ _ hv
  all_goals try obtain ⟨hq1, hq2, hq3, hq4⟩ := metadataRoundTrips_some c _ _ _ _ hmd
  all_goals
    simp [bind, Except.bind, pure, Except.pure, Except.map, *]

/-- Witness for C2 amended: a report with all optional fields present
round-trips exactly at the concrete toy instantiation. -/
theorem encryptReport_decryptReport_roundtrip_witness :
    SecureE2EE.decryptReportData Toy.prims
        (SecureE2EE.encryptReportData Toy.prims none Toy.sessionKeys0
          Toy.reportFull "IV0" "SALT0" "TS0") (some Toy.sessionKeys0) none =
      Except.ok Toy.reportFull :=
  encryptReport_decryptReport_roundtrip Toy.prims Toy.sessionKeys0 Toy.reportFull
    "IV0" "SALT0" "TS0" (by decide) (by decide) (by decide) (by decide) (by decide)

/-- C2 counterexample: a bundle whose photo URL is present but empty does
not round-trip: the source's truthiness guard silently drops the field, so
decryption returns a bundle with the photo URL absent instead of the
original. -/
theorem roundtrip_drops_present_empty_optional_field :
    SecureE2EE.decryptReportData Toy.prims
        (SecureE2EE.encryptReportData Toy.prims none Toy.sessionKeys0
          Toy.reportEmptyPhoto "IV0" "SALT0" "TS0") (some Toy.sessionKeys0) none =
      Except.ok { Toy.reportEmptyPhoto with photo_url := none } ∧
    ({ Toy.reportEmptyPhoto with photo_url := none } : ReportData String) ≠
      Toy.reportEmptyPhoto :=
  ⟨rfl, by decide⟩

/-- C3: any bundle that differs from the one produced under K in a
ciphertext field, iv, or salt (in particular, in a single character of one
of them), while carrying the original hmac, changes the HMAC payload; and
whenever the HMAC keyed by K over the tampered payload differs from the
HMAC over the original payload (the collision-freeness instance of
HMAC-SHA256 for this tampering), `decryptReportData` fails with the
integrity error.  The failure does not depend on the decryption primitives
at all — any instantiation agreeing with `c` on `hmacSha256` and
`stringifyPayload` yields the same rejected result — so the HMAC comparison
settles the call before any field is decrypted.  The bundle carries no
sessionId field (see the C4 artifacts), so sessionId tampering has no
counterpart. -/
theorem tampered_bundle_rejected_before_any_decryption {J : Type}
    (c c2 : CryptoPrims J) (K : KeyPair) (F : ReportData J) (iv salt ts : String)
    (B2 : SecureEncryptedData)
    (hhmac : B2.hmac = (SecureE2EE.encryptReportData c (some K) K F iv salt ts).hmac)
    (hdiff :
      B2.encryptedMessage ≠
        (SecureE2EE.encryptReportData c (some K) K F iv salt ts).encryptedMessage ∨
      B2.encryptedCategory ≠
        (SecureE2EE.encryptReportData c (some K) K F iv salt ts).encryptedCategory ∨
      B2.encryptedPhotoUrl ≠
        (SecureE2EE.encryptReportData c (some K) K F iv salt ts).encryptedPhotoUrl ∨
      B2.encryptedVideoUrl ≠
        (SecureE2EE.encryptReportData c (some K) K F iv salt ts).encryptedVideoUrl ∨
      B2.encryptedVideoMetadata ≠
        (SecureE2EE.encryptReportData c (some K) K F iv salt ts).encryptedVideoMetadata ∨
      B2.iv ≠ (SecureE2EE.encryptReportData c (some K) K F iv salt ts).iv ∨
      B2.salt ≠ (SecureE2EE.encryptReportData c (some K) K F iv salt ts).salt)
    (hcoll : c.hmacSha256
        (c.stringifyPayload (SecureE2EE.payloadOfBundle B2 K.sessionId)) K.hmacKey ≠
      c.hmacSha256
        (c.stringifyPayload (SecureE2EE.payloadOfBundle
          (SecureE2EE.encryptReportData c (some K) K F iv salt ts) K.sessionId))
        K.hmacKey)
    (hsame1 : c2.hmacSha256 = c.hmacSha256)
    (hsame2 : c2.stringifyPayload = c.stringifyPayload) :
    SecureE2EE.payloadOfBundle B2 K.sessionId ≠
      SecureE2EE.payloadOfBundle
        (SecureE2EE.encryptReportData c (some K) K F iv salt ts) K.sessionId ∧
    SecureE2EE.decryptReportData c B2 (some K) none =
      Except.error "HMAC verification failed - data may be corrupted" ∧
    SecureE2EE.decryptReportData c2 B2 (some K) none =
      Except.error "HMAC verification failed - data may be corrupted" := by
  have hcond : c.hmacSha256
      (c.stringifyPayload (SecureE2EE.payloadOfBundle B2 K.sessionId)) K.hmacKey ≠
      B2.hmac := by
    rw [hhmac]; exact hcoll
  refine ⟨?_, ?_, ?_⟩
  · intro h
    rcases hdiff with hd | hd | hd | hd | hd | hd | hd
    · exact hd (congrArg HmacPayload.encryptedMessage h)
    · exact hd (congrArg HmacPayload.encryptedCategory h)
    · exact hd (congrArg HmacPayload.encryptedPhotoUrl h)
    · exact hd (congrArg HmacPayload.encryptedVideoUrl h)
    · exact hd (congrArg HmacPayload.encryptedVideoMetadata h)
    · exact hd (congrArg HmacPayload.iv h)
    · exact hd (congrArg HmacPayload.salt h)
  · unfold SecureE2EE.decryptReportData
    simp only [Option.orElse]
    exact if_pos hcond
  · unfold SecureE2EE.decryptReportData
    simp only [Option.orElse]
    rw [hsame1, hsame2]
    exact if_pos hcond

/-- Witness for C3: a concrete bundle with one ciphertext character changed
is rejected by the HMAC check under the original keys, also when the
decryption primitive cannot decrypt anything at all. -/
theorem tampered_bundle_rejected_before_any_decryption_witness :
    SecureE2EE.payloadOfBundle { Toy.bundle0 with encryptedMessage := "X" }
        Toy.sessionKeys0.sessionId ≠
      SecureE2EE.payloadOfBundle
        (SecureE2EE.encryptReportData Toy.prims (some Toy.sessionKeys0)
          Toy.sessionKeys0 Toy.report0 "IV0" "SALT0" "TS0")
        Toy.sessionKeys0.sessionId ∧
    SecureE2EE.decryptReportData Toy.prims
        { Toy.bundle0 with encryptedMessage := "X" } (some Toy.sessionKeys0) none =
      Except.error "HMAC verification failed - data may be corrupted" ∧
    SecureE2EE.decryptReportData Toy.primsNoDecrypt
        { Toy.bundle0 with encryptedMessage := "X" } (some Toy.sessionKeys0) none =
      Except.error "HMAC verification failed - data may be corrupted" :=
  tampered_bundle_rejected_before_any_decryption Toy.prims Toy.primsNoDecrypt
    Toy.sessionKeys0 Toy.report0 "IV0" "SALT0" "TS0"
    { Toy.bundle0 with encryptedMessage := "X" }
    rfl (Or.inl (by decide)) (by decide) rfl rfl

/-- C6 amended: the legacy `safeDecrypt` helper is fully characterized by
the decryption result — a failed UTF-8 conversion raises the
incompatible-format error, an output whose NUL count exceeds half its length
raises the corrupted-data error, anything else is returned — while
`SecureE2EEManager.decryptField` applies no plausibility validation and
returns whatever the conversion yields. -/
theorem safeDecrypt_validates_decryptField_does_not {J : Type} (c : CryptoPrims J)
    (ct key iv : String) (r : Option String) (hr : c.aesDecrypt ct key iv = r) :
    Legacy.safeDecrypt c ct key iv =
      (match r with
       | none => Except.error "Incompatible encryption format or wrong decryption key"
       | some s =>
          if 2 * Legacy.countNullBytes s > s.length then
            Except.error "Decryption resulted in corrupted data (too many null bytes)"
          else Except.ok s) ∧
    SecureE2EE.decryptField c ct key iv =
      (match r with
       | none => Except.error "Malformed UTF-8 data"
       | some s => Except.ok s) := by
  rcases r with _ | s <;>
    simp [Legacy.safeDecrypt, SecureE2EE.decryptField, hr]

/-- Witness for C6 amended at a concrete toy ciphertext. -/
theorem safeDecrypt_validates_decryptField_does_not_witness :
    Legacy.safeDecrypt Toy.prims "AES(ok;K;V)" "K" "V" = Except.ok "ok" ∧
    SecureE2EE.decryptField Toy.prims "AES(ok;K;V)" "K" "V" = Except.ok "ok" :=
  safeDecrypt_validates_decryptField_does_not Toy.prims "AES(ok;K;V)" "K" "V"
    (some "ok") rfl

/-- C6 counterexample: the E2EE decryption path returns a message consisting
entirely of NUL bytes to the caller — no DecryptionError is raised even
though the null-byte count exceeds half the length — so the message field is
not validated on this path. -/
theorem e2ee_decrypt_returns_null_dominated_plaintext :
    SecureE2EE.decryptReportData Toy.prims
        (SecureE2EE.encryptReportData Toy.prims none Toy.sessionKeys0
          Toy.reportNullMessage "IV0" "SALT0" "TS0") (some Toy.sessionKeys0) none =
      Except.ok Toy.reportNullMessage ∧
    2 * Legacy.countNullBytes Toy.reportNullMessage.message >
      Toy.reportNullMessage.message.length :=
  ⟨rfl, by decide⟩

/-- C7 amended: in the legacy `decryptReportData`, when the decrypted
metadata string is whitespace-only or fails to parse as JSON, the result
degrades to an absent `video_metadata` while the remaining fields are
decrypted and returned; no error is propagated from the metadata block.
(The SecureE2EEManager path instead propagates the parse failure — see the
counterexample.) -/
theorem legacy_metadata_failure_degrades_to_undefined {J : Type} (c : CryptoPrims J)
    (e : Legacy.EncryptedData) (ct s m cat : String)
    (hct : e.encryptedVideoMetadata = some ct) (hct0 : ct ≠ "")
    (hs : c.aesDecrypt ct Legacy.ENCRYPTION_KEY (c.hexParse e.iv) = some s)
    (hbad : jsTrim s = "" ∨ c.jsonParse s = (none : Option J))
    (hm : Legacy.safeDecrypt c e.encryptedMessage Legacy.ENCRYPTION_KEY
        (c.hexParse e.iv) = Except.ok m)
    (hcat : Legacy.safeDecrypt c e.encryptedCategory Legacy.ENCRYPTION_KEY
        (c.hexParse e.iv) = Except.ok cat)
    (hpo : e.encryptedPhotoUrl = none) (hvo : e.encryptedVideoUrl = none) :
    Legacy.decryptReportData c e =
      Except.ok { message := m, category := cat, photo_url := none,
                  video_url := none, video_metadata := (none : Option J) } := by
  unfold Legacy.decryptReportData Legacy.decryptVideoMetadata
  rcases hbad with hb | hb
  · simp [hct, hct0, hs, hm, hcat, hpo, hvo, hb, bind, Except.bind, pure, Except.pure]
  · by_cases hg : s ≠ "" ∧ jsTrim s ≠ ""
    · simp [hct, hct0, hs, hm, hcat, hpo, hvo, hg, hb, bind, Except.bind, pure, Except.pure]
    · simp [hct, hct0, hs, hm, hcat, hpo, hvo, hg, hb, bind, Except.bind, pure, Except.pure]

/-- Witness for C7 amended: a legacy bundle whose metadata decrypts to a
single blank degrades to absent metadata with the other fields intact. -/
theorem legacy_metadata_failure_degrades_to_undefined_witness :
    Legacy.decryptReportData Toy.prims Toy.legacyBundle0 =
      Except.ok { message := "m", category := "c", photo_url := none,
                  video_url := none, video_metadata := (none : Option String) } :=
  legacy_metadata_failure_degrades_to_undefined Toy.prims Toy.legacyBundle0
    (Toy.prims.aesEncrypt " " Legacy.ENCRYPTION_KEY "V") " " "m" "c"
    rfl (by decide) (by decide) (Or.inl (by decide)) rfl rfl rfl rfl

/-- C7 counterexample: in `SecureE2EEManager.decryptReportData`, a bundle
whose decrypted video metadata fails to parse as JSON makes the whole
decryption fail — the parse failure is propagated to the caller instead of
degrading to an absent metadata field. -/
theorem e2ee_metadata_parse_failure_propagates :
    Toy.primsNoParse.jsonParse "md" = none ∧
    SecureE2EE.decryptReportData Toy.primsNoParse
        (SecureE2EE.encryptReportData Toy.primsNoParse none Toy.sessionKeys0
          Toy.reportWithMetadata "IV0" "SALT0" "TS0") (some Toy.sessionKeys0) none =
      Except.error "JSON.parse failed" :=
  ⟨rfl, rfl⟩

/-- C5 (code bug): `encryptFile` never uses the caller-supplied key pair —
an operator-precedence slip makes every branch call `getCurrentKeys`, which
itself always generates fresh ephemeral keys — so while the chunk count is
`ceil(base64 length / 1 MiB)` as specified, the round trip
`decryptFile(encryptFile(content, K), K)` fails the HMAC integrity check;
decrypting with the internally generated fresh keys is what succeeds. -/
theorem encryptFile_ignores_caller_keys_roundtrip_fails :
    Toy.fileBundle0.metadata.chunks = 1 ∧
    FileEnc.decryptFile Toy.prims Toy.fileBundle0 (some Toy.callerKeys) 3 =
      Except.error "File integrity check failed - file may be corrupted" ∧
    FileEnc.decryptFile Toy.prims Toy.fileBundle0 (some Toy.freshKeys0) 3 =
      Except.ok "aGVsbG8" :=
  ⟨rfl, rfl, rfl⟩

end Whistle
